import Mathlib

/-!
# Ring sizer: conversion engine and screen state machine

A shallow embedding of `src/ring_sizer.c`.

* Unsigned machine integers are natural numbers; every cast the source performs
  to a narrower unsigned type is an explicit reduction modulo `2 ^ w`.
* `int` values are integers; `wrap_int` is the two's-complement reduction to
  32 bits that the target performs on signed results.
* Character buffers are lists of characters; `snprintf` keeps at most
  `out_sz - 1` of the characters it formats.
* The main loop of `ring_sizer_app` is the function `step`, one iteration on one
  dequeued input event, acting on the fields of `App` the loop reads and writes
  and on the local flag `running`.
-/

namespace RingSizer

/-! ## Machine integers -/

/-- Cast to `uint8_t`. -/
def to_u8 (n : Nat) : Nat := n % 2 ^ 8

/-- Cast to `uint16_t`. -/
def to_u16 (n : Nat) : Nat := n % 2 ^ 16

/-- Cast to `uint32_t`. -/
def to_u32 (n : Nat) : Nat := n % 2 ^ 32

/-- Cast to `uint64_t`. -/
def to_u64 (n : Nat) : Nat := n % 2 ^ 64

/-- Two's-complement reduction of an integer to the 32-bit `int` range. -/
def wrap_int (x : Int) : Int := (x + 2 ^ 31) % 2 ^ 32 - 2 ^ 31

/-- Conversion of an `int` to `uint64_t`: reduction modulo `2 ^ 64`. -/
def int_to_u64 (x : Int) : Nat := (x % 2 ^ 64).toNat

/-- Conversion of an unsigned 32-bit value to `int`. -/
def u32_to_int (n : Nat) : Int := wrap_int (n : Int)

/-- The C library function `abs` on values whose negation is representable. -/
def c_abs (x : Int) : Int := if x < 0 then -x else x

/-! ## Constants and the size table -/

/-- Micrometres per pixel, `#define UM_PER_PX_DEFAULT 248u`. -/
def UM_PER_PX_DEFAULT : Nat := 248

/-- Fixed-point pi, `#define PI_X1000000 3141593u`. -/
def PI_X1000000 : Nat := 3141593

/-- One row of the size table: `typedef struct { uint8_t us_x2; uint16_t dia_x100; } UsDia`. -/
structure UsDia where
  us_x2 : Nat
  dia_x100 : Nat
  deriving DecidableEq, Repr

/-- The static table `us_table`. -/
def us_table : List UsDia :=
  [ ⟨6, 1410⟩, ⟨7, 1450⟩, ⟨8, 1490⟩, ⟨9, 1530⟩,
    ⟨10, 1570⟩, ⟨11, 1610⟩, ⟨12, 1650⟩, ⟨13, 1690⟩,
    ⟨14, 1730⟩, ⟨15, 1770⟩, ⟨16, 1810⟩, ⟨17, 1850⟩,
    ⟨18, 1890⟩, ⟨19, 1940⟩, ⟨20, 1980⟩, ⟨21, 2020⟩,
    ⟨22, 2060⟩, ⟨23, 2100⟩, ⟨24, 2140⟩, ⟨25, 2180⟩,
    ⟨26, 2220⟩, ⟨27, 2260⟩, ⟨28, 2300⟩, ⟨29, 2340⟩,
    ⟨30, 2380⟩ ]

/-- The constant `us_table_len = sizeof(us_table) / sizeof(us_table[0])`. -/
def us_table_len : Nat := us_table.length

/-- The array read `us_table[i]` (indices used by the source are below `us_table_len`). -/
def us_entry (i : Nat) : UsDia := us_table.getD i ⟨0, 0⟩

/-! ## Ring math -/

/-- The function `dia_x100_from_radius_px`, with `app->um_per_px` passed as `um_per_px`:
`num = (uint64_t)(2 * radius_px) * (uint64_t)um_per_px; return (uint16_t)((num + 5) / 10)`. -/
def dia_x100_from_radius_px (um_per_px : Nat) (radius_px : Int) : Nat :=
  let num := to_u64 (int_to_u64 (wrap_int (2 * radius_px)) * to_u64 um_per_px)
  to_u16 (to_u64 (num + 5) / 10)

/-- The function `eu_from_dia_x100`:
`num = PI_X1000000 * dia_x100; return (uint16_t)((num + 50000000) / 100000000)`. -/
def eu_from_dia_x100 (dia_x100 : Nat) : Nat :=
  let num := to_u64 (to_u64 PI_X1000000 * to_u64 dia_x100)
  to_u16 (to_u64 (num + 50000000) / 100000000)

/-- The error `abs((int)dia_x100 - (int)us_table[i].dia_x100)` of table row `i`. -/
def us_err (dia_x100 : Nat) (i : Nat) : Int :=
  c_abs ((dia_x100 : Int) - ((us_entry i).dia_x100 : Int))

/-- One iteration of the loop body of `us_from_dia_x100` on the pair `(best, best_err)`. -/
def us_scan_step (dia_x100 : Nat) (s : Nat × Int) (i : Nat) : Nat × Int :=
  let err := us_err dia_x100 i
  if err < s.2 then ((us_entry i).us_x2, err) else s

/-- The function `us_from_dia_x100`: the loop `for(i = 1; i < us_table_len; i++)` started from
row 0. -/
def us_from_dia_x100 (dia_x100 : Nat) : Nat :=
  let best := (us_entry 0).us_x2
  let best_err := us_err dia_x100 0
  ((List.range' 1 (us_table_len - 1)).foldl (us_scan_step dia_x100) (best, best_err)).1

/-- The error `abs((int)us_x2 - (int)us_table[i].us_x2)` of table row `i`. -/
def dia_err (us_x2 : Nat) (i : Nat) : Int :=
  c_abs ((us_x2 : Int) - ((us_entry i).us_x2 : Int))

/-- One iteration of the loop body of `dia_x100_from_us_x2` on the pair `(best_d, best_err)`. -/
def dia_scan_step (us_x2 : Nat) (s : Nat × Int) (i : Nat) : Nat × Int :=
  let err := dia_err us_x2 i
  if err < s.2 then ((us_entry i).dia_x100, err) else s

/-- The function `dia_x100_from_us_x2`. -/
def dia_x100_from_us_x2 (us_x2 : Nat) : Nat :=
  let best_d := (us_entry 0).dia_x100
  let best_err := dia_err us_x2 0
  ((List.range' 1 (us_table_len - 1)).foldl (dia_scan_step us_x2) (best_d, best_err)).1

/-- The function `dia_x100_from_eu`:
`num = eu * 100 * 1000000; return (uint16_t)((num + PI_X1000000 / 2) / PI_X1000000)`. -/
def dia_x100_from_eu (eu : Nat) : Nat :=
  let num := to_u64 (to_u64 (to_u64 eu * 100) * 1000000)
  to_u16 (to_u64 (num + PI_X1000000 / 2) / to_u64 PI_X1000000)

/-- The function `radius_from_dia_x100`, with `app->um_per_px` passed as `um_per_px`:
`dia_um = (uint32_t)dia_x100 * 10u; r = (int)((dia_um + um_per_px) / (2u * um_per_px));
if(r < 1) r = 1`.  Division by zero has no result. -/
def radius_from_dia_x100 (um_per_px : Nat) (dia_x100 : Nat) : Option Int :=
  let dia_um := to_u32 (to_u32 dia_x100 * 10)
  let divisor := to_u32 (2 * um_per_px)
  if divisor = 0 then none
  else
    let r := u32_to_int (to_u32 (dia_um + um_per_px) / divisor)
    some (if r < 1 then 1 else r)

/-! ## Formatting helpers -/

/-- The text produced by the conversion `%u`: the decimal digits of the value. -/
def fmt_u (n : Nat) : List Char := Nat.toDigits 10 n

/-- The text produced by the conversion `%02u`: the decimal digits, padded on the left with
zeros up to a width of two. -/
def fmt_02u (n : Nat) : List Char :=
  List.replicate (2 - (fmt_u n).length) '0' ++ fmt_u n

/-- The content `snprintf(out, out_sz, ...)` leaves in `out` for the formatted `text`: at most
`out_sz - 1` characters of it (the terminator takes the last place). -/
def snprintf (out_sz : Nat) (text : List Char) : List Char := text.take (out_sz - 1)

/-- The function `format_us_x2`. -/
def format_us_x2 (out_sz : Nat) (us_x2 : Nat) : List Char :=
  if us_x2 % 2 = 0 then
    snprintf out_sz (fmt_u (us_x2 / 2))
  else
    snprintf out_sz (fmt_u (us_x2 / 2) ++ ['.', '5'])

/-- The function `format_mm_x100`. -/
def format_mm_x100 (out_sz : Nat) (mm_x100 : Nat) : List Char :=
  snprintf out_sz (fmt_u (mm_x100 / 100) ++ ['.'] ++ fmt_02u (mm_x100 % 100))

/-! ## Application state -/

/-- The enumeration `Screen`. -/
inductive Screen where
  | Menu
  | Measure
  | MeasureResult
  | DisplayPrompt
  | DisplayCircle
  deriving DecidableEq, Repr

/-- The enumeration `DisplayMode`. -/
inductive DisplayMode where
  | US
  | EU
  deriving DecidableEq, Repr

/-- The fields of `App` that the main loop and the drawing code read and write.  The handles
`gui`, `vp` and `input_queue` belong to the host and carry no application data. -/
structure App where
  screen : Screen
  menu_index : Nat
  um_per_px : Nat
  radius_px : Int
  last_us_x2 : Nat
  last_eu : Nat
  last_dia_x100 : Nat
  prompt_mode : DisplayMode
  prompt_us_x2 : Nat
  prompt_eu : Nat
  deriving DecidableEq, Repr

/-- Modelled from the spec: the key of an input event.  The type `InputKey` is declared in the
host header `input/input.h`, outside the repository; the six keys are the ones the source
names (`InputKeyUp`, `InputKeyDown`, `InputKeyRight`, `InputKeyLeft`, `InputKeyOk`,
`InputKeyBack`), and `Other` stands for any further value of the enumeration. -/
inductive InputKey where
  | Up
  | Down
  | Right
  | Left
  | Ok
  | Back
  | Other
  deriving DecidableEq, Repr

/-- Modelled from the spec: the kind of an input event.  The type `InputType` is declared in the
host header `input/input.h`, outside the repository; `Short` and `Repeat` are the two kinds the
source names, and `Other` stands for every other kind. -/
inductive InputType where
  | Short
  | Repeat
  | Other
  deriving DecidableEq, Repr

/-- The two fields of `InputEvent` the loop reads, `event.type` and `event.key`. -/
structure InputEvent where
  type : InputType
  key : InputKey
  deriving DecidableEq, Repr

/-- The state `ring_sizer_app` builds before entering its loop: `memset(app, 0, ...)` followed
by the assignments of the defaults. -/
def init_app : App :=
  { screen := Screen.Menu
    menu_index := 0
    um_per_px := UM_PER_PX_DEFAULT
    radius_px := 22
    last_us_x2 := 0
    last_eu := 0
    last_dia_x100 := 0
    prompt_mode := DisplayMode.US
    prompt_us_x2 := 14
    prompt_eu := 54 }

/-- The function `go_menu`. -/
def go_menu (app : App) : App := { app with screen := Screen.Menu }

/-- The function `enter_display`. -/
def enter_display (app : App) : App :=
  { app with
    screen := Screen.DisplayPrompt
    prompt_mode := DisplayMode.US
    prompt_us_x2 := 14
    prompt_eu := 54 }

/-! ## Drawing: the values handed to the renderer -/

/-- The three values `draw_center_stack` receives. -/
structure CenterStack where
  dia_x100 : Nat
  us_x2 : Nat
  eu : Nat
  deriving DecidableEq, Repr

/-- The function `draw_measure`: the radius of the circle it draws and the values it passes to
`draw_center_stack`. -/
def draw_measure (app : App) : Int × CenterStack :=
  let dia_x100 := dia_x100_from_radius_px app.um_per_px app.radius_px
  let eu := eu_from_dia_x100 dia_x100
  let us_x2 := us_from_dia_x100 dia_x100
  (app.radius_px, ⟨dia_x100, us_x2, eu⟩)

/-- The function `draw_measure_result`: the radius of the circle it draws (none when the radius
computation divides by zero) and the frozen values it passes to `draw_center_stack`. -/
def draw_measure_result (app : App) : Option Int × CenterStack :=
  (radius_from_dia_x100 app.um_per_px app.last_dia_x100,
    ⟨app.last_dia_x100, app.last_us_x2, app.last_eu⟩)

/-- The function `draw_display_circle`: the radius of the circle it draws (none when the radius
computation divides by zero) and the values it passes to `draw_center_stack`. -/
def draw_display_circle (app : App) : Option Int × CenterStack :=
  let dia_x100 :=
    if app.prompt_mode = DisplayMode.US then dia_x100_from_us_x2 app.prompt_us_x2
    else dia_x100_from_eu app.prompt_eu
  let r := radius_from_dia_x100 app.um_per_px dia_x100
  let eu := eu_from_dia_x100 dia_x100
  let us_x2 := us_from_dia_x100 dia_x100
  (r, ⟨dia_x100, us_x2, eu⟩)

/-! ## The main loop -/

/-- The `case ScreenMenu` branch of the switch; the second component is `running`. -/
def on_menu (app : App) (key : InputKey) : App × Bool :=
  if key = InputKey.Up then
    (if app.menu_index > 0 then { app with menu_index := to_u8 (app.menu_index - 1) } else app,
      true)
  else if key = InputKey.Down then
    (if app.menu_index < 1 then { app with menu_index := to_u8 (app.menu_index + 1) } else app,
      true)
  else if key = InputKey.Ok then
    (if app.menu_index = 0 then { app with screen := Screen.Measure } else enter_display app,
      true)
  else if key = InputKey.Back then
    (app, false)
  else
    (app, true)

/-- The `case ScreenMeasure` branch of the switch. -/
def on_measure (app : App) (key : InputKey) : App :=
  if key = InputKey.Up then
    { app with radius_px := wrap_int (app.radius_px + 1) }
  else if key = InputKey.Down then
    if app.radius_px > 1 then { app with radius_px := wrap_int (app.radius_px - 1) } else app
  else if key = InputKey.Ok then
    let app1 := { app with last_dia_x100 := dia_x100_from_radius_px app.um_per_px app.radius_px }
    let app2 := { app1 with last_eu := eu_from_dia_x100 app1.last_dia_x100 }
    let app3 := { app2 with last_us_x2 := us_from_dia_x100 app2.last_dia_x100 }
    { app3 with screen := Screen.MeasureResult }
  else if key = InputKey.Back then
    go_menu app
  else
    app

/-- The `case ScreenMeasureResult` branch of the switch. -/
def on_measure_result (app : App) (key : InputKey) : App :=
  if key = InputKey.Ok ∨ key = InputKey.Back then go_menu app else app

/-- The `case ScreenDisplayPrompt` branch of the switch. -/
def on_display_prompt (app : App) (key : InputKey) : App :=
  if key = InputKey.Left ∨ key = InputKey.Right then
    { app with
      prompt_mode :=
        if app.prompt_mode = DisplayMode.US then DisplayMode.EU else DisplayMode.US }
  else if key = InputKey.Up then
    if app.prompt_mode = DisplayMode.US then
      if app.prompt_us_x2 < 30 then { app with prompt_us_x2 := to_u8 (app.prompt_us_x2 + 1) }
      else app
    else
      if app.prompt_eu < 80 then { app with prompt_eu := to_u16 (app.prompt_eu + 1) } else app
  else if key = InputKey.Down then
    if app.prompt_mode = DisplayMode.US then
      if app.prompt_us_x2 > 6 then { app with prompt_us_x2 := to_u8 (app.prompt_us_x2 - 1) }
      else app
    else
      if app.prompt_eu > 40 then { app with prompt_eu := to_u16 (app.prompt_eu - 1) } else app
  else if key = InputKey.Ok then
    { app with screen := Screen.DisplayCircle }
  else if key = InputKey.Back then
    go_menu app
  else
    app

/-- The `case ScreenDisplayCircle` branch of the switch. -/
def on_display_circle (app : App) (key : InputKey) : App :=
  if key = InputKey.Left ∨ key = InputKey.Right then
    { app with
      prompt_mode :=
        if app.prompt_mode = DisplayMode.US then DisplayMode.EU else DisplayMode.US }
  else if key = InputKey.Up then
    if app.prompt_mode = DisplayMode.US then
      if app.prompt_us_x2 < 30 then { app with prompt_us_x2 := to_u8 (app.prompt_us_x2 + 1) }
      else app
    else
      if app.prompt_eu < 80 then { app with prompt_eu := to_u16 (app.prompt_eu + 1) } else app
  else if key = InputKey.Down then
    if app.prompt_mode = DisplayMode.US then
      if app.prompt_us_x2 > 6 then { app with prompt_us_x2 := to_u8 (app.prompt_us_x2 - 1) }
      else app
    else
      if app.prompt_eu > 40 then { app with prompt_eu := to_u16 (app.prompt_eu - 1) } else app
  else if key = InputKey.Ok ∨ key = InputKey.Back then
    go_menu app
  else
    app

/-- One iteration of the loop of `ring_sizer_app` on a dequeued event: the new state and the new
value of `running` (which is true when the body starts).  An event whose type is neither
`InputTypeShort` nor `InputTypeRepeat` takes the `continue`. -/
def step (app : App) (event : InputEvent) : App × Bool :=
  if event.type ≠ InputType.Short ∧ event.type ≠ InputType.Repeat then (app, true)
  else
    match app.screen with
    | Screen.Menu => on_menu app event.key
    | Screen.Measure => (on_measure app event.key, true)
    | Screen.MeasureResult => (on_measure_result app event.key, true)
    | Screen.DisplayPrompt => (on_display_prompt app event.key, true)
    | Screen.DisplayCircle => (on_display_circle app event.key, true)

/-- A short press of a key. -/
def press (key : InputKey) : InputEvent := ⟨InputType.Short, key⟩

/-- The loop `while(running)` fed with the events of a list in order: it handles events as
long as `running` holds and stops at the first event that clears it. -/
def run (app : App) : List InputEvent → App × Bool
  | [] => (app, true)
  | event :: rest =>
    let r := step app event
    if r.2 then run r.1 rest else r

/-! ## Reachable states -/

/-- The number of events of a list whose key is Up. -/
def count_up (evs : List InputEvent) : Nat :=
  evs.countP (fun e => e.key = InputKey.Up)

/-- The ranges of the fields stated for the states the loop reaches: the cursor is 0 or 1, the
radius is at least 1, the prompt values are in `[6, 30]` and `[40, 80]`, the scale is 248. -/
def FieldRanges (app : App) : Prop :=
  (app.menu_index = 0 ∨ app.menu_index = 1) ∧ 1 ≤ app.radius_px ∧
    (6 ≤ app.prompt_us_x2 ∧ app.prompt_us_x2 ≤ 30) ∧
    (40 ≤ app.prompt_eu ∧ app.prompt_eu ≤ 80) ∧ app.um_per_px = 248

/-! ## Facts about the table and the scans -/

/-- Invariant of the scan of `us_from_dia_x100` once rows `0 .. k-1` have been visited: the pair
holds the size and the error of the first row of least error among them. -/
def UsScanInv (d k : Nat) (s : Nat × Int) : Prop :=
  ∃ i, i < k ∧ s = ((us_entry i).us_x2, us_err d i) ∧
    ∀ j, j < k → us_err d i ≤ us_err d j ∧ (us_err d j = us_err d i → i ≤ j)

theorem us_scan_inv_step (d k : Nat) (s : Nat × Int) (h : UsScanInv d k s) :
    UsScanInv d (k + 1) (us_scan_step d s k) := by
  obtain ⟨i, hik, hs, hmin⟩ := h
  subst hs
  by_cases hlt : us_err d k < us_err d i
  · have hstep : us_scan_step d ((us_entry i).us_x2, us_err d i) k
        = ((us_entry k).us_x2, us_err d k) := by
      simp [us_scan_step, hlt]
    rw [hstep]
    refine ⟨k, Nat.lt_succ_self k, rfl, ?_⟩
    intro j hj
    rcases Nat.lt_succ_iff_lt_or_eq.mp hj with hj1 | hj1
    · have h1 := (hmin j hj1).1
      exact ⟨by omega, fun h2 => by omega⟩
    · subst hj1
      exact ⟨le_refl _, fun _ => le_refl _⟩
  · have hstep : us_scan_step d ((us_entry i).us_x2, us_err d i) k
        = ((us_entry i).us_x2, us_err d i) := by
      simp [us_scan_step, hlt]
    rw [hstep]
    refine ⟨i, Nat.lt_succ_of_lt hik, rfl, ?_⟩
    intro j hj
    rcases Nat.lt_succ_iff_lt_or_eq.mp hj with hj1 | hj1
    · exact hmin j hj1
    · subst hj1
      exact ⟨by omega, fun _ => Nat.le_of_lt hik⟩

theorem us_scan_inv_fold (d : Nat) (n : Nat) :
    ∀ (k : Nat) (s : Nat × Int), UsScanInv d k s →
      UsScanInv d (k + n) ((List.range' k n).foldl (us_scan_step d) s) := by
  induction n with
  | zero => intro k s h; simpa using h
  | succ n ih =>
    intro k s h
    rw [List.range'_succ, List.foldl_cons]
    have h1 := ih (k + 1) _ (us_scan_inv_step d k s h)
    have e : k + (n + 1) = k + 1 + n := by omega
    rw [e]
    exact h1

theorem us_entry_us_x2 (i : Nat) (h : i < 25) : (us_entry i).us_x2 = i + 6 := by
  interval_cases i <;> rfl

/-! ## Casts that lose nothing -/

theorem to_u64_of_lt (n : Nat) (h : n < 18446744073709551616) : to_u64 n = n :=
  Nat.mod_eq_of_lt h

theorem to_u32_of_lt (n : Nat) (h : n < 4294967296) : to_u32 n = n :=
  Nat.mod_eq_of_lt h

theorem to_u16_of_lt (n : Nat) (h : n < 65536) : to_u16 n = n :=
  Nat.mod_eq_of_lt h

theorem wrap_int_of_range (x : Int) (hlo : -2147483648 ≤ x) (hhi : x < 2147483648) :
    wrap_int x = x := by
  unfold wrap_int
  omega

theorem int_to_u64_of_nat (n : Nat) (h : n < 18446744073709551616) :
    int_to_u64 (n : Int) = n := by
  unfold int_to_u64
  omega

/-- Without the casts: the circumference is the rounded quotient. -/
theorem eu_from_dia_x100_eq (d : Nat) (h : d < 65536) :
    eu_from_dia_x100 d = (3141593 * d + 50000000) / 100000000 := by
  simp only [eu_from_dia_x100, PI_X1000000]
  rw [to_u64_of_lt 3141593 (by omega), to_u64_of_lt d (by omega),
    to_u64_of_lt (3141593 * d) (by omega), to_u64_of_lt (3141593 * d + 50000000) (by omega),
    to_u16_of_lt _ (by omega)]

/-- Without the casts, as long as the quotient fits 16 bits. -/
theorem dia_x100_from_eu_eq (e : Nat) (h : e ≤ 2058) :
    dia_x100_from_eu e = (e * 100000000 + 1570796) / 3141593 := by
  simp only [dia_x100_from_eu, PI_X1000000]
  rw [to_u64_of_lt 3141593 (by omega), to_u64_of_lt e (by omega),
    to_u64_of_lt (e * 100) (by omega), to_u64_of_lt (e * 100 * 1000000) (by omega),
    to_u64_of_lt (e * 100 * 1000000 + 3141593 / 2) (by omega),
    to_u16_of_lt _ (by omega)]
  omega

/-- The diameter at the default scale, as long as it fits 16 bits. -/
theorem dia_x100_from_radius_px_default (n : Nat) (h : n ≤ 1321) :
    dia_x100_from_radius_px UM_PER_PX_DEFAULT (n : Int) = (496 * n + 5) / 10 := by
  have hw : wrap_int (2 * (n : Int)) = ((2 * n : Nat) : Int) := by
    rw [wrap_int_of_range _ (by omega) (by omega)]
    push_cast
    rfl
  have hm : 2 * n * 248 = 496 * n := by ring
  simp only [dia_x100_from_radius_px, UM_PER_PX_DEFAULT]
  rw [hw, int_to_u64_of_nat _ (by omega), to_u64_of_lt 248 (by omega),
    to_u64_of_lt (2 * n * 248) (by omega), to_u64_of_lt (2 * n * 248 + 5) (by omega),
    to_u16_of_lt _ (by omega), hm]

/-- The radius at the default scale, without the casts. -/
theorem radius_from_dia_x100_default (d : Nat) (h : d < 65536) :
    radius_from_dia_x100 UM_PER_PX_DEFAULT d
      = some (if (d * 10 + 248) / 496 < 1 then 1 else (((d * 10 + 248) / 496 : Nat) : Int)) := by
  simp only [radius_from_dia_x100, UM_PER_PX_DEFAULT, u32_to_int]
  rw [to_u32_of_lt d (by omega), to_u32_of_lt (d * 10) (by omega),
    to_u32_of_lt (2 * 248) (by omega), to_u32_of_lt (d * 10 + 248) (by omega),
    wrap_int_of_range _ (by omega) (by omega)]
  have h0 : ¬ (2 * 248 = 0) := by decide
  simp only [h0, if_false]
  congr 1
  split_ifs <;> omega

/-! ## Formatted texts -/

/-- A value below 1000 has at most three decimal digits. -/
theorem fmt_u_length_le (n : Nat) (h : n < 1000) : (fmt_u n).length ≤ 3 :=
  Nat.toDigitsCore_length 10 (by decide) (n + 1) n 3 (by omega) (by decide)

/-- A value below 100 printed with `%02u` is its tens digit followed by its units digit. -/
theorem fmt_02u_two_digits (n : Nat) (h : n < 100) :
    fmt_02u n = [Nat.digitChar (n / 10), Nat.digitChar (n % 10)] := by
  interval_cases n <;> rfl

/-- A text that fits the buffer is stored whole. -/
theorem snprintf_of_fits (out_sz : Nat) (text : List Char) (h : text.length < out_sz) :
    snprintf out_sz text = text :=
  List.take_of_length_le (by omega)

/-! ## The loop on lists of events -/

/-- Feeding two lists one after the other. -/
theorem run_append (app : App) (l1 l2 : List InputEvent) :
    run app (l1 ++ l2) = if (run app l1).2 then run (run app l1).1 l2 else run app l1 := by
  induction l1 generalizing app with
  | nil => simp [run]
  | cons e l ih =>
    simp only [List.cons_append, run]
    by_cases h : (step app e).2
    · simp only [h, if_true]
      exact ih _
    · simp [h]

/-- On the result screen the four direction keys do nothing. -/
theorem step_measure_result_direction (app : App) (e : InputEvent)
    (hs : app.screen = Screen.MeasureResult)
    (hk : e.key = InputKey.Up ∨ e.key = InputKey.Down ∨ e.key = InputKey.Left ∨
      e.key = InputKey.Right) :
    step app e = (app, true) := by
  obtain ⟨t, k⟩ := e
  simp only at hk
  rcases hk with rfl | rfl | rfl | rfl <;> cases t <;>
    simp [step, hs, on_measure_result]

/-- On the result screen any sequence of direction keys leaves the state as it is. -/
theorem run_measure_result_direction (app : App) (evs : List InputEvent)
    (hs : app.screen = Screen.MeasureResult)
    (hk : ∀ e ∈ evs, e.key = InputKey.Up ∨ e.key = InputKey.Down ∨ e.key = InputKey.Left ∨
      e.key = InputKey.Right) :
    run app evs = (app, true) := by
  induction evs with
  | nil => rfl
  | cons e l ih =>
    have h1 := step_measure_result_direction app e hs (hk e (List.mem_cons_self e l))
    simp only [run, h1, if_true]
    exact ih (fun e1 he1 => hk e1 (List.mem_cons_of_mem e he1))

/-! ## Preservation of the field ranges -/

/-- The number of Up keys an event contributes. -/
theorem count_up_cons (e : InputEvent) (l : List InputEvent) :
    count_up (e :: l) = count_up l + (if e.key = InputKey.Up then 1 else 0) := by
  simp [count_up, List.countP_cons]

/-- One iteration keeps the field ranges, and raises the radius by at most one, and only for
an Up key, as long as the radius has room below the largest `int`. -/
theorem step_field_ranges (app : App) (e : InputEvent) (hinv : FieldRanges app)
    (hroom : app.radius_px + (if e.key = InputKey.Up then 1 else 0) ≤ 2147483647) :
    FieldRanges (step app e).1 ∧
      (step app e).1.radius_px ≤ app.radius_px + (if e.key = InputKey.Up then 1 else 0) := by
  obtain ⟨t, k⟩ := e
  obtain ⟨screen, menu_index, um_per_px, radius_px, last_us_x2, last_eu, last_dia_x100,
    prompt_mode, prompt_us_x2, prompt_eu⟩ := app
  simp only [FieldRanges] at hinv ⊢
  simp only at hroom
  cases t <;> cases k <;> cases screen <;>
    simp [step, on_menu, on_measure, on_measure_result, on_display_prompt, on_display_circle,
      go_menu, enter_display, to_u8, to_u16, wrap_int] at hroom ⊢ <;>
    first
      | omega
      | (split_ifs <;> simp <;> omega)

/-- The loop keeps the field ranges along a list of events, as long as the radius has room for
the Up keys of the list below the largest `int`. -/
theorem run_field_ranges (evs : List InputEvent) :
    ∀ app : App, FieldRanges app → app.radius_px + count_up evs ≤ 2147483647 →
      FieldRanges (run app evs).1 := by
  induction evs with
  | nil => intro app hinv _; exact hinv
  | cons e l ih =>
    intro app hinv hroom
    rw [count_up_cons] at hroom
    push_cast at hroom
    have hstep := step_field_ranges app e hinv (by omega)
    show FieldRanges (if (step app e).2 then run (step app e).1 l else step app e).1
    by_cases hrun : (step app e).2
    · rw [if_pos hrun]
      exact ih _ hstep.1 (by have := hstep.2; omega)
    · rw [if_neg hrun]
      exact hstep.1

/-- On the measure screen a run of Up presses adds their number to the radius, as long as the
sum stays within `int`. -/
theorem run_measure_ups (n : Nat) :
    ∀ app : App, app.screen = Screen.Measure → -2147483648 ≤ app.radius_px →
      app.radius_px + n ≤ 2147483647 →
      run app (List.replicate n (press InputKey.Up))
        = ({ app with radius_px := app.radius_px + n }, true) := by
  induction n with
  | zero =>
    intro app _ _ _
    show (app, true) = ({ app with radius_px := app.radius_px + ((0 : Nat) : Int) }, true)
    rw [Nat.cast_zero, add_zero]
  | succ n ih =>
    intro app hs hlo hhi
    push_cast at hhi
    have hstep : step app (press InputKey.Up)
        = ({ app with radius_px := app.radius_px + 1 }, true) := by
      have hw := wrap_int_of_range (app.radius_px + 1) (by omega) (by omega)
      obtain ⟨screen, menu_index, um_per_px, radius_px, last_us_x2, last_eu, last_dia_x100,
        prompt_mode, prompt_us_x2, prompt_eu⟩ := app
      simp only at hs hw
      subst hs
      simp [step, press, on_measure, hw]
    have hrest := ih { app with radius_px := app.radius_px + 1 } hs
      (by show -2147483648 ≤ app.radius_px + 1; omega)
      (by show app.radius_px + 1 + (n : Int) ≤ 2147483647; omega)
    show (if (step app (press InputKey.Up)).2
        then run (step app (press InputKey.Up)).1 (List.replicate n (press InputKey.Up))
        else step app (press InputKey.Up)) = _
    rw [hstep, if_pos rfl, hrest]
    have hsum : app.radius_px + 1 + (n : Int) = app.radius_px + ((n + 1 : Nat) : Int) := by
      push_cast
      ring
    simp only [hsum]

/-! ## The claims -/

/-- C1: for every 16-bit diameter `d`, `us_from_dia_x100 d` is the size of a table row whose
distance `|d - dia_x100|` is least among the 25 rows, and among the rows attaining that least
distance it is the first one in table order, which is also the one of smallest size. -/
theorem us_from_dia_x100_nearest_first (d : Nat) (hd : d < 2 ^ 16) :
    ∃ i, i < 25 ∧ us_from_dia_x100 d = (us_entry i).us_x2 ∧
      (∀ j, j < 25 → us_err d i ≤ us_err d j) ∧
      (∀ j, j < 25 → us_err d j = us_err d i →
        i ≤ j ∧ (us_entry i).us_x2 ≤ (us_entry j).us_x2) := by
  have h0 : UsScanInv d 1 ((us_entry 0).us_x2, us_err d 0) := by
    refine ⟨0, Nat.one_pos, rfl, ?_⟩
    intro j hj
    have : j = 0 := by omega
    subst this
    exact ⟨le_refl _, fun _ => le_refl _⟩
  have h1 := us_scan_inv_fold d 24 1 _ h0
  obtain ⟨i, hi, hs, hmin⟩ := h1
  refine ⟨i, hi, ?_, fun j hj => (hmin j hj).1, ?_⟩
  · have hlen : us_table_len - 1 = 24 := rfl
    simp only [us_from_dia_x100, hlen]
    rw [hs]
  · intro j hj he
    have hij := (hmin j hj).2 he
    refine ⟨hij, ?_⟩
    rw [us_entry_us_x2 i hi, us_entry_us_x2 j hj]
    omega

theorem us_from_dia_x100_nearest_first_witness :
    ∃ i, i < 25 ∧ us_from_dia_x100 1430 = (us_entry i).us_x2 ∧
      (∀ j, j < 25 → us_err 1430 i ≤ us_err 1430 j) ∧
      (∀ j, j < 25 → us_err 1430 j = us_err 1430 i →
        i ≤ j ∧ (us_entry i).us_x2 ≤ (us_entry j).us_x2) :=
  us_from_dia_x100_nearest_first 1430 (by decide)

set_option maxRecDepth 100000 in
/-- C2: for every half-size unit `u` of the table (`6 ≤ u ≤ 30`), the nearest size to the
diameter the table gives for `u` is `u` itself. -/
theorem us_from_dia_of_us_roundtrip (u : Nat) (h6 : 6 ≤ u) (h30 : u ≤ 30) :
    us_from_dia_x100 (dia_x100_from_us_x2 u) = u := by
  interval_cases u <;> rfl

theorem us_from_dia_of_us_roundtrip_witness :
    us_from_dia_x100 (dia_x100_from_us_x2 19) = 19 :=
  us_from_dia_of_us_roundtrip 19 (by decide) (by decide)

/-- C3, as stated, fails: the diameter 1410 is in the range of the table, its circumference
rounds to 44 mm, and 44 mm converts back to 1401, nine hundredths away. -/
theorem dia_eu_roundtrip_within_two_fails :
    ¬ (∀ d : Nat, 1410 ≤ d → d ≤ 2380 →
        dia_x100_from_eu (eu_from_dia_x100 d) ≤ d + 2 ∧
        d ≤ dia_x100_from_eu (eu_from_dia_x100 d) + 2) := by
  intro h
  have h1 := (h 1410 (by decide) (by decide)).2
  have h2 : dia_x100_from_eu (eu_from_dia_x100 1410) = 1401 := by rfl
  rw [h2] at h1
  exact absurd h1 (by decide)

/-- C3, amended: for every diameter `d` in the range of the table (`1410 ≤ d ≤ 2380`), the
diameter recovered from the whole-millimetre circumference of `d` differs from `d` by at most 16
hundredths of a millimetre. -/
theorem dia_eu_roundtrip_within_sixteen (d : Nat) (hlo : 1410 ≤ d) (hhi : d ≤ 2380) :
    dia_x100_from_eu (eu_from_dia_x100 d) ≤ d + 16 ∧
    d ≤ dia_x100_from_eu (eu_from_dia_x100 d) + 16 := by
  rw [eu_from_dia_x100_eq d (by omega), dia_x100_from_eu_eq _ (by omega)]
  omega

theorem dia_eu_roundtrip_within_sixteen_witness :
    dia_x100_from_eu (eu_from_dia_x100 1448) ≤ 1448 + 16 ∧
    1448 ≤ dia_x100_from_eu (eu_from_dia_x100 1448) + 16 :=
  dia_eu_roundtrip_within_sixteen 1448 (by decide) (by decide)

/-- C4: with the default scale, for every radius `r` with `1 ≤ r ≤ 200` the radius computed
from the diameter of `r` is defined and differs from `r` by at most 1 (it is `r` itself). -/
theorem radius_dia_roundtrip_within_one (r : Int) (hlo : 1 ≤ r) (hhi : r ≤ 200) :
    ∃ r1 : Int,
      radius_from_dia_x100 UM_PER_PX_DEFAULT (dia_x100_from_radius_px UM_PER_PX_DEFAULT r)
        = some r1 ∧ r1 ≤ r + 1 ∧ r ≤ r1 + 1 ∧ r1 = r := by
  obtain ⟨n, rfl⟩ := Int.eq_ofNat_of_zero_le (by omega : 0 ≤ r)
  refine ⟨n, ?_, by omega, by omega, rfl⟩
  rw [dia_x100_from_radius_px_default n (by omega),
    radius_from_dia_x100_default _ (by omega)]
  congr 1
  split_ifs <;> omega

theorem radius_dia_roundtrip_within_one_witness :
    ∃ r1 : Int,
      radius_from_dia_x100 UM_PER_PX_DEFAULT (dia_x100_from_radius_px UM_PER_PX_DEFAULT 27)
        = some r1 ∧ r1 ≤ 27 + 1 ∧ 27 ≤ r1 + 1 ∧ r1 = 27 :=
  radius_dia_roundtrip_within_one 27 (by decide) (by decide)

/-- C5, as stated, fails: radius 1321 gives 65522 and radius 1322 gives 35, because the
diameter 65571 of radius 1322 does not fit the 16-bit result. -/
theorem dia_from_radius_not_monotone :
    ¬ (∀ r1 r2 : Int, 1 ≤ r1 → r1 ≤ r2 →
        dia_x100_from_radius_px UM_PER_PX_DEFAULT r1
          ≤ dia_x100_from_radius_px UM_PER_PX_DEFAULT r2) := by
  intro h
  have h1 := h 1321 1322 (by decide) (by decide)
  have h2 : dia_x100_from_radius_px UM_PER_PX_DEFAULT 1321 = 65522 := by rfl
  have h3 : dia_x100_from_radius_px UM_PER_PX_DEFAULT 1322 = 35 := by rfl
  rw [h2, h3] at h1
  exact absurd h1 (by decide)

/-- C5, amended: with the default scale, the 16-bit result of `dia_x100_from_radius_px` is
non-decreasing in the radius over the radii from 1 to 1321, the radii whose diameter fits 16
bits. -/
theorem dia_from_radius_monotone_below_wrap (r1 r2 : Int) (h1 : 1 ≤ r1) (h12 : r1 ≤ r2)
    (h2 : r2 ≤ 1321) :
    dia_x100_from_radius_px UM_PER_PX_DEFAULT r1
      ≤ dia_x100_from_radius_px UM_PER_PX_DEFAULT r2 := by
  obtain ⟨n1, rfl⟩ := Int.eq_ofNat_of_zero_le (by omega : 0 ≤ r1)
  obtain ⟨n2, rfl⟩ := Int.eq_ofNat_of_zero_le (by omega : 0 ≤ r2)
  rw [dia_x100_from_radius_px_default n1 (by omega),
    dia_x100_from_radius_px_default n2 (by omega)]
  omega

theorem dia_from_radius_monotone_below_wrap_witness :
    dia_x100_from_radius_px UM_PER_PX_DEFAULT 22
      ≤ dia_x100_from_radius_px UM_PER_PX_DEFAULT 1321 :=
  dia_from_radius_monotone_below_wrap 22 1321 (by decide) (by decide) (by decide)

/-- C6: for every 8-bit `us_x2`, `format_us_x2` writes the decimal text of `us_x2 / 2` when
`us_x2` is even and that text followed by `.5` when it is odd; for every 16-bit `mm_x100`,
`format_mm_x100` writes the decimal text of `mm_x100 / 100`, a dot, and `mm_x100 % 100` as
exactly two digits.  The buffers are the ones the callers pass (8 and 12 characters; any size
from 6, respectively 7, is enough).  Unit 15 gives `7.5`, unit 14 gives `7` and diameter 1730
gives `17.30`. -/
theorem format_texts (us_x2 mm_x100 us_sz mm_sz : Nat) (hus : us_x2 < 2 ^ 8)
    (hmm : mm_x100 < 2 ^ 16) (hus_sz : 6 ≤ us_sz) (hmm_sz : 7 ≤ mm_sz) :
    (us_x2 % 2 = 0 → format_us_x2 us_sz us_x2 = Nat.toDigits 10 (us_x2 / 2)) ∧
    (us_x2 % 2 = 1 → format_us_x2 us_sz us_x2 = Nat.toDigits 10 (us_x2 / 2) ++ ['.', '5']) ∧
    format_mm_x100 mm_sz mm_x100
      = Nat.toDigits 10 (mm_x100 / 100)
        ++ ['.', Nat.digitChar (mm_x100 % 100 / 10), Nat.digitChar (mm_x100 % 100 % 10)] ∧
    format_us_x2 8 15 = ['7', '.', '5'] ∧
    format_us_x2 8 14 = ['7'] ∧
    format_mm_x100 12 1730 = ['1', '7', '.', '3', '0'] := by
  have hq : (fmt_u (us_x2 / 2)).length ≤ 3 := fmt_u_length_le _ (by omega)
  have hw : (fmt_u (mm_x100 / 100)).length ≤ 3 := fmt_u_length_le _ (by omega)
  refine ⟨?_, ?_, ?_, by rfl, by rfl, by rfl⟩
  · intro he
    simp only [format_us_x2, he, if_true]
    rw [snprintf_of_fits _ _ (by omega)]
    rfl
  · intro ho
    have hne : ¬ (us_x2 % 2 = 0) := by omega
    have hlen : (fmt_u (us_x2 / 2) ++ ['.', '5']).length < us_sz := by
      simp only [List.length_append, List.length_cons, List.length_nil]
      omega
    simp only [format_us_x2, hne, if_false]
    rw [snprintf_of_fits _ _ hlen]
    rfl
  · have hlen : (fmt_u (mm_x100 / 100) ++ ['.']
        ++ [Nat.digitChar (mm_x100 % 100 / 10), Nat.digitChar (mm_x100 % 100 % 10)]).length
        < mm_sz := by
      simp only [List.length_append, List.length_cons, List.length_nil]
      omega
    simp only [format_mm_x100]
    rw [fmt_02u_two_digits _ (Nat.mod_lt _ (by decide)), snprintf_of_fits _ _ hlen]
    simp [fmt_u]

theorem format_texts_witness :
    (17 % 2 = 0 → format_us_x2 8 17 = Nat.toDigits 10 (17 / 2)) ∧
    (17 % 2 = 1 → format_us_x2 8 17 = Nat.toDigits 10 (17 / 2) ++ ['.', '5']) ∧
    format_mm_x100 12 1339
      = Nat.toDigits 10 (1339 / 100)
        ++ ['.', Nat.digitChar (1339 % 100 / 10), Nat.digitChar (1339 % 100 % 10)] ∧
    format_us_x2 8 15 = ['7', '.', '5'] ∧
    format_us_x2 8 14 = ['7'] ∧
    format_mm_x100 12 1730 = ['1', '7', '.', '3', '0'] :=
  format_texts 17 1339 8 12 (by decide) (by decide) (by decide) (by decide)

set_option maxRecDepth 100000 in
/-- C7: the display scenario from the initial state.  Down moves the cursor to 1; Confirm opens
the prompt in US mode at 14; three Up presses give 17, formatted `8.5`; Left switches to EU
mode with the EU value 54; Confirm opens the circle screen, whose drawn values are the ones
derived from 54 mm: diameter `dia_x100_from_eu 54 = 1719`, US `us_from_dia_x100 1719 = 14` and
EU `eu_from_dia_x100 1719 = 54`; Back returns to the menu; the loop keeps running throughout. -/
theorem display_scenario :
    run init_app [press InputKey.Down] = ({ init_app with menu_index := 1 }, true) ∧
    run init_app [press InputKey.Down, press InputKey.Ok]
      = ({ init_app with
            menu_index := 1, screen := Screen.DisplayPrompt, prompt_mode := DisplayMode.US,
            prompt_us_x2 := 14 }, true) ∧
    run init_app [press InputKey.Down, press InputKey.Ok, press InputKey.Up, press InputKey.Up,
        press InputKey.Up]
      = ({ init_app with
            menu_index := 1, screen := Screen.DisplayPrompt, prompt_mode := DisplayMode.US,
            prompt_us_x2 := 17 }, true) ∧
    format_us_x2 8 17 = ['8', '.', '5'] ∧
    run init_app [press InputKey.Down, press InputKey.Ok, press InputKey.Up, press InputKey.Up,
        press InputKey.Up, press InputKey.Left]
      = ({ init_app with
            menu_index := 1, screen := Screen.DisplayPrompt, prompt_mode := DisplayMode.EU,
            prompt_us_x2 := 17, prompt_eu := 54 }, true) ∧
    run init_app [press InputKey.Down, press InputKey.Ok, press InputKey.Up, press InputKey.Up,
        press InputKey.Up, press InputKey.Left, press InputKey.Ok]
      = ({ init_app with
            menu_index := 1, screen := Screen.DisplayCircle, prompt_mode := DisplayMode.EU,
            prompt_us_x2 := 17, prompt_eu := 54 }, true) ∧
    (draw_display_circle
        { init_app with
          menu_index := 1, screen := Screen.DisplayCircle, prompt_mode := DisplayMode.EU,
          prompt_us_x2 := 17, prompt_eu := 54 }).2
      = ⟨dia_x100_from_eu 54, us_from_dia_x100 (dia_x100_from_eu 54),
          eu_from_dia_x100 (dia_x100_from_eu 54)⟩ ∧
    dia_x100_from_eu 54 = 1719 ∧
    us_from_dia_x100 1719 = 14 ∧
    eu_from_dia_x100 1719 = 54 ∧
    run init_app [press InputKey.Down, press InputKey.Ok, press InputKey.Up, press InputKey.Up,
        press InputKey.Up, press InputKey.Left, press InputKey.Ok, press InputKey.Back]
      = ({ init_app with
            menu_index := 1, screen := Screen.Menu, prompt_mode := DisplayMode.EU,
            prompt_us_x2 := 17, prompt_eu := 54 }, true) := by
  refine ⟨by rfl, by rfl, by rfl, by rfl, by rfl, by rfl, by rfl, by rfl, by rfl, by rfl, by rfl⟩

set_option maxRecDepth 100000 in
/-- C8: the measure scenario from the initial state.  Confirm opens the measure screen with
radius 22; five Up presses give radius 27; Confirm opens the result screen with the triple of
radius 27 frozen, diameter 1339, US 6 and EU 42, which is the triple the measure screen shows
for that radius; after any further sequence of Up, Down, Left and Right events the state is
exactly that one (and so it is from any state on the result screen), the loop still running. -/
theorem measure_scenario_frozen (evs : List InputEvent)
    (hk : ∀ e ∈ evs, e.key = InputKey.Up ∨ e.key = InputKey.Down ∨ e.key = InputKey.Left ∨
      e.key = InputKey.Right) :
    run init_app [press InputKey.Ok] = ({ init_app with screen := Screen.Measure }, true) ∧
    (run init_app [press InputKey.Ok]).1.radius_px = 22 ∧
    run init_app [press InputKey.Ok, press InputKey.Up, press InputKey.Up, press InputKey.Up,
        press InputKey.Up, press InputKey.Up]
      = ({ init_app with screen := Screen.Measure, radius_px := 27 }, true) ∧
    (draw_measure { init_app with screen := Screen.Measure, radius_px := 27 }).2
      = ⟨1339, 6, 42⟩ ∧
    run init_app [press InputKey.Ok, press InputKey.Up, press InputKey.Up, press InputKey.Up,
        press InputKey.Up, press InputKey.Up, press InputKey.Ok]
      = ({ init_app with
            screen := Screen.MeasureResult, radius_px := 27, last_dia_x100 := 1339,
            last_us_x2 := 6, last_eu := 42 }, true) ∧
    run init_app ([press InputKey.Ok, press InputKey.Up, press InputKey.Up, press InputKey.Up,
        press InputKey.Up, press InputKey.Up, press InputKey.Ok] ++ evs)
      = ({ init_app with
            screen := Screen.MeasureResult, radius_px := 27, last_dia_x100 := 1339,
            last_us_x2 := 6, last_eu := 42 }, true) ∧
    (∀ app : App, app.screen = Screen.MeasureResult → run app evs = (app, true)) := by
  have h5 : run init_app [press InputKey.Ok, press InputKey.Up, press InputKey.Up,
        press InputKey.Up, press InputKey.Up, press InputKey.Up, press InputKey.Ok]
      = ({ init_app with
            screen := Screen.MeasureResult, radius_px := 27, last_dia_x100 := 1339,
            last_us_x2 := 6, last_eu := 42 }, true) := by rfl
  refine ⟨by rfl, by rfl, by rfl, by rfl, h5, ?_, ?_⟩
  · rw [run_append, h5]
    simp only [if_true]
    exact run_measure_result_direction _ evs rfl hk
  · intro app hs
    exact run_measure_result_direction app evs hs hk

theorem measure_scenario_frozen_witness :
    run init_app ([press InputKey.Ok, press InputKey.Up, press InputKey.Up, press InputKey.Up,
        press InputKey.Up, press InputKey.Up, press InputKey.Ok]
        ++ [press InputKey.Up, press InputKey.Down, ⟨InputType.Repeat, InputKey.Left⟩,
          press InputKey.Right])
      = ({ init_app with
            screen := Screen.MeasureResult, radius_px := 27, last_dia_x100 := 1339,
            last_us_x2 := 6, last_eu := 42 }, true) :=
  (measure_scenario_frozen
    [press InputKey.Up, press InputKey.Down, ⟨InputType.Repeat, InputKey.Left⟩,
      press InputKey.Right]
    (by decide)).2.2.2.2.2.1

/-- C9: saturating edits on both display screens.  For a state on DisplayPrompt or
DisplayCircle with `prompt_us_x2` in `[6, 30]` and `prompt_eu` in `[40, 80]`, and an accepted
event: in US mode Up sets `prompt_us_x2` to `min (prompt_us_x2 + 1) 30` and Down to
`max (prompt_us_x2 - 1) 6`; in EU mode Up sets `prompt_eu` to `min (prompt_eu + 1) 80` and Down
to `max (prompt_eu - 1) 40`; nothing else changes and the loop keeps running.  In US mode Up at
30 and Down at 6 leave the state as it is, and the two screens produce the same fields. -/
theorem display_edits_saturate (app : App) (t : InputType)
    (hs : app.screen = Screen.DisplayPrompt ∨ app.screen = Screen.DisplayCircle)
    (hus : 6 ≤ app.prompt_us_x2 ∧ app.prompt_us_x2 ≤ 30)
    (heu : 40 ≤ app.prompt_eu ∧ app.prompt_eu ≤ 80)
    (ht : t = InputType.Short ∨ t = InputType.Repeat) :
    (app.prompt_mode = DisplayMode.US →
      step app ⟨t, InputKey.Up⟩
        = ({ app with prompt_us_x2 := min (app.prompt_us_x2 + 1) 30 }, true) ∧
      step app ⟨t, InputKey.Down⟩
        = ({ app with prompt_us_x2 := max (app.prompt_us_x2 - 1) 6 }, true)) ∧
    (app.prompt_mode = DisplayMode.EU →
      step app ⟨t, InputKey.Up⟩
        = ({ app with prompt_eu := min (app.prompt_eu + 1) 80 }, true) ∧
      step app ⟨t, InputKey.Down⟩
        = ({ app with prompt_eu := max (app.prompt_eu - 1) 40 }, true)) ∧
    (app.prompt_mode = DisplayMode.US → app.prompt_us_x2 = 30 →
      step app ⟨t, InputKey.Up⟩ = (app, true)) ∧
    (app.prompt_mode = DisplayMode.US → app.prompt_us_x2 = 6 →
      step app ⟨t, InputKey.Down⟩ = (app, true)) ∧
    (∀ k : InputKey, k = InputKey.Up ∨ k = InputKey.Down →
      step { app with screen := Screen.DisplayCircle } ⟨t, k⟩
        = ({ (step { app with screen := Screen.DisplayPrompt } ⟨t, k⟩).1 with
              screen := Screen.DisplayCircle },
            (step { app with screen := Screen.DisplayPrompt } ⟨t, k⟩).2)) := by
  obtain ⟨screen, menu_index, um_per_px, radius_px, last_us_x2, last_eu, last_dia_x100,
    prompt_mode, prompt_us_x2, prompt_eu⟩ := app
  simp only at hs hus heu
  refine ⟨?_, ?_, ?_, ?_, ?_⟩
  · intro hm
    simp only at hm
    subst hm
    rcases hs with rfl | rfl <;> rcases ht with rfl | rfl <;>
      simp [step, on_display_prompt, on_display_circle, to_u8] <;>
      constructor <;> split_ifs <;> simp <;> omega
  · intro hm
    simp only at hm
    subst hm
    rcases hs with rfl | rfl <;> rcases ht with rfl | rfl <;>
      simp [step, on_display_prompt, on_display_circle, to_u16] <;>
      constructor <;> split_ifs <;> simp <;> omega
  · intro hm h30
    simp only at hm h30
    subst hm h30
    rcases hs with rfl | rfl <;> rcases ht with rfl | rfl <;>
      simp [step, on_display_prompt, on_display_circle]
  · intro hm h6
    simp only at hm h6
    subst hm h6
    rcases hs with rfl | rfl <;> rcases ht with rfl | rfl <;>
      simp [step, on_display_prompt, on_display_circle]
  · intro k hk
    rcases hk with rfl | rfl <;> rcases ht with rfl | rfl <;> cases prompt_mode <;>
      simp [step, on_display_prompt, on_display_circle] <;> split_ifs <;> simp

theorem display_edits_saturate_witness :
    step { init_app with
        screen := Screen.DisplayCircle, prompt_mode := DisplayMode.US, prompt_us_x2 := 30 }
      ⟨InputType.Repeat, InputKey.Up⟩
      = ({ init_app with
            screen := Screen.DisplayCircle, prompt_mode := DisplayMode.US, prompt_us_x2 := 30 },
          true) :=
  (display_edits_saturate
    { init_app with
      screen := Screen.DisplayCircle, prompt_mode := DisplayMode.US, prompt_us_x2 := 30 }
    InputType.Repeat (Or.inr rfl) (by decide) (by decide) (Or.inr rfl)).2.2.1 rfl rfl

/-- C10: on the menu with the cursor on item 1, whatever the prompt mode and the two prompt
values are, an accepted Confirm event opens DisplayPrompt in US mode with `prompt_us_x2 = 14`
and `prompt_eu = 54`, changes no other field and keeps the loop running. -/
theorem menu_confirm_display_resets (app : App) (t : InputType)
    (hs : app.screen = Screen.Menu) (hm : app.menu_index = 1)
    (ht : t = InputType.Short ∨ t = InputType.Repeat) :
    step app ⟨t, InputKey.Ok⟩
      = ({ app with
            screen := Screen.DisplayPrompt, prompt_mode := DisplayMode.US, prompt_us_x2 := 14,
            prompt_eu := 54 }, true) := by
  rcases ht with rfl | rfl <;>
    simp [step, hs, on_menu, hm, enter_display]

theorem menu_confirm_display_resets_witness :
    step { init_app with
        menu_index := 1, prompt_mode := DisplayMode.EU, prompt_us_x2 := 23, prompt_eu := 71 }
      ⟨InputType.Short, InputKey.Ok⟩
      = ({ init_app with
            menu_index := 1, screen := Screen.DisplayPrompt, prompt_mode := DisplayMode.US,
            prompt_us_x2 := 14, prompt_eu := 54 }, true) :=
  menu_confirm_display_resets
    { init_app with
      menu_index := 1, prompt_mode := DisplayMode.EU, prompt_us_x2 := 23, prompt_eu := 71 }
    InputType.Short rfl rfl (Or.inl rfl)

/-- C11: for every state and every event, the step clears `running` exactly when the event is
accepted (type Short or Repeat), its key is Back and the screen is Menu; and on each of the
four other screens an accepted Back event sets the screen to Menu, keeps the loop running and
changes no other field. -/
theorem back_exits_only_from_menu (app : App) (e : InputEvent) (t : InputType)
    (ht : t = InputType.Short ∨ t = InputType.Repeat) :
    ((step app e).2 = false ↔
      (e.type = InputType.Short ∨ e.type = InputType.Repeat) ∧ e.key = InputKey.Back ∧
        app.screen = Screen.Menu) ∧
    (app.screen ≠ Screen.Menu →
      step app ⟨t, InputKey.Back⟩ = ({ app with screen := Screen.Menu }, true)) := by
  obtain ⟨et, ek⟩ := e
  obtain ⟨screen, menu_index, um_per_px, radius_px, last_us_x2, last_eu, last_dia_x100,
    prompt_mode, prompt_us_x2, prompt_eu⟩ := app
  constructor
  · cases et <;> cases ek <;> cases screen <;> simp [step, on_menu]
  · intro hs
    simp only [ne_eq] at hs
    rcases ht with rfl | rfl <;> cases screen <;>
      simp [step, on_measure, on_measure_result, on_display_prompt, on_display_circle,
        go_menu] at hs ⊢

theorem back_exits_only_from_menu_witness :
    ((step { init_app with screen := Screen.DisplayCircle } ⟨InputType.Short, InputKey.Back⟩).2
        = false ↔
      (InputType.Short = InputType.Short ∨ InputType.Short = InputType.Repeat) ∧
        InputKey.Back = InputKey.Back ∧ Screen.DisplayCircle = Screen.Menu) ∧
    (Screen.DisplayCircle ≠ Screen.Menu →
      step { init_app with screen := Screen.DisplayCircle } ⟨InputType.Repeat, InputKey.Back⟩
        = ({ init_app with screen := Screen.Menu }, true)) :=
  back_exits_only_from_menu { init_app with screen := Screen.DisplayCircle }
    ⟨InputType.Short, InputKey.Back⟩ InputType.Repeat (Or.inr rfl)

/-- C12: for every state and every key, an event whose type is neither Short nor Repeat leaves
the whole state unchanged and keeps the loop running; and a Short event and a Repeat event with
the same key give the same next state and the same value of `running`. -/
theorem other_event_types_ignored (app : App) (k : InputKey) (t : InputType)
    (hs : t ≠ InputType.Short) (hr : t ≠ InputType.Repeat) :
    step app ⟨t, k⟩ = (app, true) ∧
    step app ⟨InputType.Short, k⟩ = step app ⟨InputType.Repeat, k⟩ := by
  constructor
  · simp [step, hs, hr]
  · simp [step]

theorem other_event_types_ignored_witness :
    step { init_app with screen := Screen.Measure } ⟨InputType.Other, InputKey.Up⟩
      = ({ init_app with screen := Screen.Measure }, true) ∧
    step { init_app with screen := Screen.Measure } ⟨InputType.Short, InputKey.Up⟩
      = step { init_app with screen := Screen.Measure } ⟨InputType.Repeat, InputKey.Up⟩ :=
  other_event_types_ignored { init_app with screen := Screen.Measure } InputKey.Up
    InputType.Other (by decide) (by decide)

/-- C13, as stated, fails: after Confirm on the menu and 2147483626 Up presses on the measure
screen the radius has passed the largest `int` and is `-2147483648`, below 1. -/
theorem field_ranges_fail_after_radius_overflow :
    ¬ (∀ evs : List InputEvent, FieldRanges (run init_app evs).1) := by
  intro h
  have h1 := (h ([press InputKey.Ok] ++ List.replicate 2147483625 (press InputKey.Up)
    ++ [press InputKey.Up])).2.1
  have h2 : run init_app [press InputKey.Ok]
      = ({ init_app with screen := Screen.Measure }, true) := by rfl
  have h3 := run_measure_ups 2147483625 { init_app with screen := Screen.Measure } rfl
    (by decide) (by decide)
  rw [run_append, run_append, h2] at h1
  simp only [if_true, h3] at h1
  revert h1
  simp [run, step, press, on_measure, init_app, wrap_int]

/-- C13, amended: in every state the loop reaches from the initial state by a finite sequence
of events of which at most 2147483625 have the key Up, `menu_index` is 0 or 1, `radius_px ≥ 1`,
`6 ≤ prompt_us_x2 ≤ 30`, `40 ≤ prompt_eu ≤ 80` and `um_per_px = 248`. -/
theorem field_ranges_reachable (evs : List InputEvent) (hup : count_up evs ≤ 2147483625) :
    (( run init_app evs).1.menu_index = 0 ∨ (run init_app evs).1.menu_index = 1) ∧
    1 ≤ (run init_app evs).1.radius_px ∧
    (6 ≤ (run init_app evs).1.prompt_us_x2 ∧ (run init_app evs).1.prompt_us_x2 ≤ 30) ∧
    (40 ≤ (run init_app evs).1.prompt_eu ∧ (run init_app evs).1.prompt_eu ≤ 80) ∧
    (run init_app evs).1.um_per_px = 248 := by
  have h0 : FieldRanges init_app := by
    simp [FieldRanges, init_app, UM_PER_PX_DEFAULT]
  have hroom : init_app.radius_px + count_up evs ≤ 2147483647 := by
    have : init_app.radius_px = 22 := rfl
    rw [this]
    omega
  exact run_field_ranges evs init_app h0 hroom

theorem field_ranges_reachable_witness :
    FieldRanges (run init_app [press InputKey.Ok, press InputKey.Up, press InputKey.Down,
      press InputKey.Down, press InputKey.Back, press InputKey.Down, press InputKey.Ok,
      press InputKey.Right, press InputKey.Up]).1 :=
  field_ranges_reachable [press InputKey.Ok, press InputKey.Up, press InputKey.Down,
      press InputKey.Down, press InputKey.Back, press InputKey.Down, press InputKey.Ok,
      press InputKey.Right, press InputKey.Up] (by decide)

/-- C14: for every 16-bit diameter `d`, `eu_from_dia_x100 d` is the round-half-up quotient
`(3141593 * d + 50000000) / 100000000`; that quotient is below 65536, so the cast to 16 bits
loses nothing; and the result `e` satisfies `|e * 10^8 - 3141593 * d| ≤ 5 * 10^7`. -/
theorem eu_from_dia_round_half_up (d : Nat) (hd : d < 2 ^ 16) :
    eu_from_dia_x100 d = (3141593 * d + 50000000) / 100000000 ∧
    (3141593 * d + 50000000) / 100000000 < 65536 ∧
    |((eu_from_dia_x100 d : Nat) : Int) * 100000000 - 3141593 * (d : Int)| ≤ 50000000 := by
  have hd1 : d < 65536 := by omega
  have he := eu_from_dia_x100_eq d hd1
  refine ⟨he, by omega, ?_⟩
  rw [he, abs_le]
  constructor <;> omega

theorem eu_from_dia_round_half_up_witness :
    eu_from_dia_x100 1730 = (3141593 * 1730 + 50000000) / 100000000 ∧
    (3141593 * 1730 + 50000000) / 100000000 < 65536 ∧
    |((eu_from_dia_x100 1730 : Nat) : Int) * 100000000 - 3141593 * ((1730 : Nat) : Int)|
      ≤ 50000000 :=
  eu_from_dia_round_half_up 1730 (by decide)

set_option maxRecDepth 100000 in
/-- C15: on the editable EU range, `40 ≤ eu ≤ 80`, the circumference of the diameter computed
from `eu` is `eu` again, so the EU value `draw_display_circle` shows in EU mode is the value
entered. -/
theorem eu_of_dia_of_eu (eu : Nat) (hlo : 40 ≤ eu) (hhi : eu ≤ 80) :
    eu_from_dia_x100 (dia_x100_from_eu eu) = eu ∧
    (∀ app : App, app.prompt_mode = DisplayMode.EU → app.prompt_eu = eu →
      (draw_display_circle app).2.eu = eu) := by
  have h1 : eu_from_dia_x100 (dia_x100_from_eu eu) = eu := by
    interval_cases eu <;> rfl
  refine ⟨h1, ?_⟩
  intro app hm he
  have hne : ¬ (DisplayMode.EU = DisplayMode.US) := by decide
  simp only [draw_display_circle, hm, he, hne, if_false]
  exact h1

theorem eu_of_dia_of_eu_witness :
    eu_from_dia_x100 (dia_x100_from_eu 54) = 54 ∧
    (∀ app : App, app.prompt_mode = DisplayMode.EU → app.prompt_eu = 54 →
      (draw_display_circle app).2.eu = 54) :=
  eu_of_dia_of_eu 54 (by decide) (by decide)

/-- C16, as stated, fails: the scale `2147483648` is positive and fits 32 bits, but twice it is
zero in 32-bit arithmetic, so the division of `radius_from_dia_x100` has a zero divisor. -/
theorem radius_from_dia_zero_divisor :
    ¬ (∀ s d : Nat, 0 < s → s < 2 ^ 32 → d < 2 ^ 16 →
        to_u32 (2 * s) ≠ 0 ∧
        radius_from_dia_x100 s d = some (max 1 (((10 * d + s) / (2 * s) : Nat) : Int))) := by
  intro h
  have h1 := (h 2147483648 0 (by decide) (by decide) (by decide)).1
  exact h1 (by rfl)

/-- C16, amended: for every scale `s` with `0 < s < 2^31` and every 16-bit diameter `d`, the
divisor `2 * s` of `radius_from_dia_x100`, computed in 32-bit unsigned arithmetic, is not zero,
the function returns `max 1 ((10 * d + s) / (2 * s))`, and so a value that is at least 1. -/
theorem radius_from_dia_defined (s d : Nat) (hs0 : 0 < s) (hs : s < 2 ^ 31) (hd : d < 2 ^ 16) :
    to_u32 (2 * s) ≠ 0 ∧
    radius_from_dia_x100 s d = some (max 1 (((10 * d + s) / (2 * s) : Nat) : Int)) ∧
    (∃ r : Int, radius_from_dia_x100 s d = some r ∧ 1 ≤ r) := by
  have hs1 : s < 2147483648 := by omega
  have hd1 : d < 65536 := by omega
  have hdiv : to_u32 (2 * s) = 2 * s := to_u32_of_lt _ (by omega)
  have hne : ¬ (2 * s = 0) := by omega
  have hq : (d * 10 + s) / (2 * s) ≤ (d * 10 + s) / 2 :=
    Nat.div_le_div_left (by omega) (by decide)
  have hval : radius_from_dia_x100 s d
      = some (max 1 (((10 * d + s) / (2 * s) : Nat) : Int)) := by
    have hc : 10 * d = d * 10 := by ring
    simp only [radius_from_dia_x100, u32_to_int]
    rw [hdiv, to_u32_of_lt d (by omega), to_u32_of_lt (d * 10) (by omega),
      to_u32_of_lt (d * 10 + s) (by omega), hc]
    generalize (d * 10 + s) / (2 * s) = q at hq ⊢
    rw [wrap_int_of_range (q : Int) (by omega) (by omega)]
    simp only [hne, if_false]
    congr 1
    split_ifs <;> omega
  refine ⟨by rw [hdiv]; exact hne, hval, ?_⟩
  exact ⟨_, hval, le_max_left _ _⟩

theorem radius_from_dia_defined_witness :
    to_u32 (2 * 248) ≠ 0 ∧
    radius_from_dia_x100 248 1719
      = some (max 1 (((10 * 1719 + 248) / (2 * 248) : Nat) : Int)) ∧
    (∃ r : Int, radius_from_dia_x100 248 1719 = some r ∧ 1 ≤ r) :=
  radius_from_dia_defined 248 1719 (by decide) (by decide) (by decide)

/-- C17: on DisplayPrompt and on DisplayCircle an accepted Left event and an accepted Right
event each flip `prompt_mode` and leave `prompt_us_x2`, `prompt_eu`, the screen and every other
field unchanged; two toggle events in a row give back the state they started from. -/
theorem toggle_mode_involution (app : App) (t1 t2 : InputType) (k1 k2 : InputKey)
    (hs : app.screen = Screen.DisplayPrompt ∨ app.screen = Screen.DisplayCircle)
    (ht1 : t1 = InputType.Short ∨ t1 = InputType.Repeat)
    (ht2 : t2 = InputType.Short ∨ t2 = InputType.Repeat)
    (hk1 : k1 = InputKey.Left ∨ k1 = InputKey.Right)
    (hk2 : k2 = InputKey.Left ∨ k2 = InputKey.Right) :
    step app ⟨t1, k1⟩
      = ({ app with
            prompt_mode :=
              if app.prompt_mode = DisplayMode.US then DisplayMode.EU else DisplayMode.US },
          true) ∧
    step (step app ⟨t1, k1⟩).1 ⟨t2, k2⟩ = (app, true) := by
  obtain ⟨screen, menu_index, um_per_px, radius_px, last_us_x2, last_eu, last_dia_x100,
    prompt_mode, prompt_us_x2, prompt_eu⟩ := app
  simp only at hs
  rcases hs with rfl | rfl <;> rcases ht1 with rfl | rfl <;> rcases ht2 with rfl | rfl <;>
    rcases hk1 with rfl | rfl <;> rcases hk2 with rfl | rfl <;> cases prompt_mode <;>
    simp [step, on_display_prompt, on_display_circle]

theorem toggle_mode_involution_witness :
    step { init_app with screen := Screen.DisplayPrompt, prompt_us_x2 := 17 }
        ⟨InputType.Short, InputKey.Left⟩
      = ({ init_app with
            screen := Screen.DisplayPrompt, prompt_us_x2 := 17, prompt_mode := DisplayMode.EU },
          true) ∧
    step (step { init_app with screen := Screen.DisplayPrompt, prompt_us_x2 := 17 }
        ⟨InputType.Short, InputKey.Left⟩).1 ⟨InputType.Repeat, InputKey.Right⟩
      = ({ init_app with screen := Screen.DisplayPrompt, prompt_us_x2 := 17 }, true) :=
  toggle_mode_involution { init_app with screen := Screen.DisplayPrompt, prompt_us_x2 := 17 }
    InputType.Short InputType.Repeat InputKey.Left InputKey.Right (Or.inl rfl) (Or.inl rfl)
    (Or.inr rfl) (Or.inl rfl) (Or.inr rfl)

/-- C18: the table has exactly 25 rows, their sizes are 6, 7, ..., 30 in that order, and both
fields increase strictly with the index: for `i < j < 25`, row `i` has the smaller size and the
smaller diameter. -/
theorem us_table_sorted (i j : Nat) (hij : i < j) (hj : j < 25) :
    us_table_len = 25 ∧
    us_table.map UsDia.us_x2 = List.range' 6 25 ∧
    (us_entry i).us_x2 < (us_entry j).us_x2 ∧
    (us_entry i).dia_x100 < (us_entry j).dia_x100 := by
  have hall : ∀ b, b < 25 → ∀ a, a < b →
      (us_entry a).us_x2 < (us_entry b).us_x2 ∧
        (us_entry a).dia_x100 < (us_entry b).dia_x100 := by
    decide
  exact ⟨rfl, by decide, hall j hj i hij⟩

theorem us_table_sorted_witness :
    us_table_len = 25 ∧
    us_table.map UsDia.us_x2 = List.range' 6 25 ∧
    (us_entry 12).us_x2 < (us_entry 13).us_x2 ∧
    (us_entry 12).dia_x100 < (us_entry 13).dia_x100 :=
  us_table_sorted 12 13 (by decide) (by decide)

/-- C19: on the measure screen with radius `r`, `1 ≤ r` and `r` below the largest `int`, an
accepted Up sets `radius_px` to `r + 1` and an accepted Down to `max (r - 1) 1`, both changing
nothing else; an accepted Confirm stores `dia_x100_from_radius_px` of `r`, its circumference and
its nearest size in the three result fields, moves to MeasureResult and keeps `radius_px`, so
the frozen triple is the triple `draw_measure` shows for the same radius. -/
theorem measure_screen_keys (app : App) (t : InputType)
    (hs : app.screen = Screen.Measure)
    (ht : t = InputType.Short ∨ t = InputType.Repeat)
    (hlo : 1 ≤ app.radius_px) (hhi : app.radius_px < 2147483647) :
    step app ⟨t, InputKey.Up⟩ = ({ app with radius_px := app.radius_px + 1 }, true) ∧
    step app ⟨t, InputKey.Down⟩ = ({ app with radius_px := max (app.radius_px - 1) 1 }, true) ∧
    step app ⟨t, InputKey.Ok⟩
      = ({ app with
            last_dia_x100 := dia_x100_from_radius_px app.um_per_px app.radius_px,
            last_eu := eu_from_dia_x100 (dia_x100_from_radius_px app.um_per_px app.radius_px),
            last_us_x2 := us_from_dia_x100 (dia_x100_from_radius_px app.um_per_px app.radius_px),
            screen := Screen.MeasureResult }, true) ∧
    (step app ⟨t, InputKey.Ok⟩).1.radius_px = app.radius_px ∧
    (draw_measure_result (step app ⟨t, InputKey.Ok⟩).1).2 = (draw_measure app).2 := by
  have hup := wrap_int_of_range (app.radius_px + 1) (by omega) (by omega)
  have hdown := wrap_int_of_range (app.radius_px - 1) (by omega) (by omega)
  obtain ⟨screen, menu_index, um_per_px, radius_px, last_us_x2, last_eu, last_dia_x100,
    prompt_mode, prompt_us_x2, prompt_eu⟩ := app
  simp only at hs hlo hhi hup hdown
  subst hs
  refine ⟨?_, ?_, ?_, ?_, ?_⟩
  · rcases ht with rfl | rfl <;> simp [step, on_measure, hup]
  · rcases ht with rfl | rfl <;> simp [step, on_measure, hdown] <;> split_ifs <;> simp <;>
      omega
  · rcases ht with rfl | rfl <;> simp [step, on_measure]
  · rcases ht with rfl | rfl <;> simp [step, on_measure]
  · rcases ht with rfl | rfl <;>
      simp [step, on_measure, draw_measure_result, draw_measure]

set_option maxRecDepth 100000 in
theorem measure_screen_keys_witness :
    step { init_app with screen := Screen.Measure, radius_px := 27 }
        ⟨InputType.Short, InputKey.Ok⟩
      = ({ init_app with
            radius_px := 27,
            last_dia_x100 := dia_x100_from_radius_px init_app.um_per_px 27,
            last_eu := eu_from_dia_x100 (dia_x100_from_radius_px init_app.um_per_px 27),
            last_us_x2 := us_from_dia_x100 (dia_x100_from_radius_px init_app.um_per_px 27),
            screen := Screen.MeasureResult }, true) :=
  (measure_screen_keys { init_app with screen := Screen.Measure, radius_px := 27 }
    InputType.Short rfl (Or.inl rfl) (by decide) (by decide)).2.2.1

/-- C20: entering the measure screen does not reset the radius.  On the menu with the cursor on
item 0 an accepted Confirm sets the screen to Measure and changes nothing else; `go_menu`
changes the screen only; an iteration changes `radius_px` only on the measure screen; so
leaving the measure screen with Back and entering it again with Confirm finds the radius that
was left. -/
theorem measure_entry_keeps_radius (app : App) (e : InputEvent) (t1 t2 : InputType)
    (ht1 : t1 = InputType.Short ∨ t1 = InputType.Repeat)
    (ht2 : t2 = InputType.Short ∨ t2 = InputType.Repeat) :
    (app.screen = Screen.Menu → app.menu_index = 0 →
      step app ⟨t1, InputKey.Ok⟩ = ({ app with screen := Screen.Measure }, true)) ∧
    go_menu app = { app with screen := Screen.Menu } ∧
    (go_menu app).radius_px = app.radius_px ∧
    (app.screen ≠ Screen.Measure → (step app e).1.radius_px = app.radius_px) ∧
    (app.screen = Screen.Measure →
      step app ⟨t1, InputKey.Back⟩ = ({ app with screen := Screen.Menu }, true)) ∧
    (app.screen = Screen.Measure → app.menu_index = 0 →
      run app [⟨t1, InputKey.Back⟩, ⟨t2, InputKey.Ok⟩] = (app, true)) := by
  obtain ⟨et, ek⟩ := e
  obtain ⟨screen, menu_index, um_per_px, radius_px, last_us_x2, last_eu, last_dia_x100,
    prompt_mode, prompt_us_x2, prompt_eu⟩ := app
  refine ⟨?_, rfl, rfl, ?_, ?_, ?_⟩
  · intro hs hm
    simp only at hs hm
    subst hs hm
    rcases ht1 with rfl | rfl <;> simp [step, on_menu]
  · intro hs
    simp only [ne_eq] at hs
    cases et <;> cases ek <;> cases screen <;>
      simp [step, on_menu, on_measure_result, on_display_prompt, on_display_circle, go_menu,
        enter_display] at hs ⊢ <;>
      (split_ifs <;> rfl)
  · intro hs
    simp only at hs
    subst hs
    rcases ht1 with rfl | rfl <;> simp [step, on_measure, go_menu]
  · intro hs hm
    simp only at hs hm
    subst hs hm
    rcases ht1 with rfl | rfl <;> rcases ht2 with rfl | rfl <;>
      simp [run, step, on_measure, on_menu, go_menu]

theorem measure_entry_keeps_radius_witness :
    run { init_app with screen := Screen.Measure, radius_px := 31 }
        [⟨InputType.Short, InputKey.Back⟩, ⟨InputType.Repeat, InputKey.Ok⟩]
      = ({ init_app with screen := Screen.Measure, radius_px := 31 }, true) :=
  (measure_entry_keeps_radius { init_app with screen := Screen.Measure, radius_px := 31 }
    ⟨InputType.Short, InputKey.Up⟩ InputType.Short InputType.Repeat (Or.inl rfl)
    (Or.inr rfl)).2.2.2.2.2 rfl rfl

end RingSizer
